import Mathlib

/-!
# Verification of the computer-use-mcp `computer` tool

Shallow embedding of `src/src/utils/schema.ts` (the `registerComputer` tool
handler together with its helpers `getSizeToApiScale` and
`getApiToLogicalScale`) and theorems settling the specification claims.

Modelling conventions:
* JavaScript numbers are modelled as exact rationals (`ℚ`) where the code only
  performs field arithmetic and rounding, and as exact reals (`ℝ`) where the
  code calls `Math.sqrt` (`getSizeToApiScale`); float rounding error is not
  modelled.
* `Math.round x` is `⌊x + 1/2⌋` (round half towards +∞), `Math.floor` is `⌊·⌋`.
* The handler's interaction with the outside world (nut-js, jimp, sharp) is
  modelled as a trace of `Effect`s plus an optional thrown `DispatchError`.
* The scale factor returned by `getApiToLogicalScale` is the reciprocal of
  `getSizeToApiScale` evaluated on the live screen size; because that value is
  irrational in general, the coordinate pipeline (`dispatch`) is parametrised
  by the scale-up factor `scaleUp : ℚ` it would receive, and the numeric
  derivation of the factor itself is modelled separately over `ℝ`.
-/

namespace ComputerMcp

/-- JavaScript `Math.round`: round half towards positive infinity. -/
def roundQ (q : ℚ) : ℤ := ⌊q + 1/2⌋

/-- `const maxLongEdge = 1568` from `schema.ts`. -/
def maxLongEdge : ℝ := 1568

/-- `const maxPixels = 1.15 * 1024 * 1024` from `schema.ts`. -/
noncomputable def maxPixels : ℝ := 1.15 * 1024 * 1024

/-- `longEdgeScale = longEdge > maxLongEdge ? maxLongEdge / longEdge : 1`
from `getSizeToApiScale`, with `longEdge = Math.max(width, height)`. -/
noncomputable def longEdgeScale (width height : ℕ) : ℝ :=
  if max (width : ℝ) (height : ℝ) > maxLongEdge then
    maxLongEdge / max (width : ℝ) (height : ℝ)
  else 1

/-- `pixelScale = totalPixels > maxPixels ? Math.sqrt(maxPixels / totalPixels) : 1`
from `getSizeToApiScale`, with `totalPixels = width * height`. -/
noncomputable def pixelScale (width height : ℕ) : ℝ :=
  if (width : ℝ) * (height : ℝ) > maxPixels then
    Real.sqrt (maxPixels / ((width : ℝ) * (height : ℝ)))
  else 1

/-- `getSizeToApiScale(width, height)` from `schema.ts`: the factor by which a
frame of the given size is shrunk to fit the API image limits. -/
noncomputable def getSizeToApiScale (width height : ℕ) : ℝ :=
  min (longEdgeScale width height) (pixelScale width height)

/-- The resize step of the `get_screenshot` case: if
`apiScaleFactor = getSizeToApiScale(width, height)` is `< 1` the frame is
resized to `Math.floor(width * f) × Math.floor(height * f)`, otherwise it is
left unchanged. -/
noncomputable def screenshotDims (width height : ℕ) : ℕ × ℕ :=
  if getSizeToApiScale width height < 1 then
    (⌊(width : ℝ) * getSizeToApiScale width height⌋₊,
     ⌊(height : ℝ) * getSizeToApiScale width height⌋₊)
  else (width, height)

/-- The JSON text payload returned by `get_screenshot`:
`{image_width, image_height}` read from the frame after the resize step. -/
structure ScreenshotReport where
  image_width : ℕ
  image_height : ℕ

/-- `get_screenshot` reads `image.getWidth()` / `image.getHeight()` after the
resize and reports them in the text payload. -/
noncomputable def screenshotReport (width height : ℕ) : ScreenshotReport :=
  ⟨(screenshotDims width height).1, (screenshotDims width height).2⟩

/-- The coordinate translation applied to an incoming API image-space
coordinate (lines `Math.round(coordinate[i] * scale)` of the handler), where
`scaleUp` is the value returned by `getApiToLogicalScale`. -/
def toLogicalCoord (c : ℚ) (scaleUp : ℚ) : ℤ := roundQ (c * scaleUp)

/-- The conversion used by `get_cursor_position`:
`Math.round(pos.x / scale)` with `scale = getApiToLogicalScale()`. -/
def toImageCoord (c : ℤ) (scaleUp : ℚ) : ℤ := roundQ ((c : ℚ) / scaleUp)

/-- The conversion used by `get_screenshot` for the crosshair centre:
`Math.floor(cursorPos.x / scale)` with `scale = getApiToLogicalScale()`.
Note the code uses `Math.floor` here, not `Math.round`. -/
def markerCenter (c : ℤ) (scaleUp : ℚ) : ℤ := ⌊(c : ℚ) / scaleUp⌋

/-! ## Crosshair drawing (`get_screenshot`, the two pixel loops) -/

/-- `const crosshairSize = 20` from `schema.ts`. -/
def crosshairSize : ℤ := 20

/-- The integers from `a` to `b` inclusive (empty when `b < a`); the index
range of a JavaScript `for (let i = a; i <= b; i++)` loop. -/
def intRange (a b : ℤ) : List ℤ :=
  (List.range (b + 1 - a).toNat).map (fun i : ℕ => a + (i : ℤ))

/-- Pixels written by the horizontal-line loop of the crosshair drawing:
`x` runs from `max(0, cx - 20)` to `min(w - 1, cx + 20)`; each iteration
writes `(x, cy)` when `0 ≤ cy < h`, plus `(x, cy - 1)` when `cy > 0` and
`(x, cy + 1)` when `cy < h - 1`. -/
def horizontalWrites (w h cx cy : ℤ) : List (ℤ × ℤ) :=
  (intRange (max 0 (cx - crosshairSize)) (min (w - 1) (cx + crosshairSize))).flatMap
    (fun x =>
      if 0 ≤ cy ∧ cy < h then
        [(x, cy)]
          ++ (if 0 < cy then [(x, cy - 1)] else [])
          ++ (if cy < h - 1 then [(x, cy + 1)] else [])
      else [])

/-- Pixels written by the vertical-line loop of the crosshair drawing
(the mirror image of `horizontalWrites`). -/
def verticalWrites (w h cx cy : ℤ) : List (ℤ × ℤ) :=
  (intRange (max 0 (cy - crosshairSize)) (min (h - 1) (cy + crosshairSize))).flatMap
    (fun y =>
      if 0 ≤ cx ∧ cx < w then
        [(cx, y)]
          ++ (if 0 < cx then [(cx - 1, y)] else [])
          ++ (if cx < w - 1 then [(cx + 1, y)] else [])
      else [])

/-- All pixels written when drawing the crosshair marker with centre
`(cx, cy)` into a `w × h` frame. -/
def crosshairWrites (w h cx cy : ℤ) : List (ℤ × ℤ) :=
  horizontalWrites w h cx cy ++ verticalWrites w h cx cy

/-! ## Generic string helpers (JavaScript semantics, over `List Char`) -/

/-- JavaScript `String.prototype.split` with a single-character separator. -/
def splitOnChar (sep : Char) : List Char → List (List Char)
  | [] => [[]]
  | c :: rest =>
    let r := splitOnChar sep rest
    if c = sep then [] :: r
    else
      match r with
      | [] => [[c]]
      | seg :: segs => (c :: seg) :: segs

/-- Value of a list of decimal digits. -/
def digitsToNat (ds : List Char) : ℕ := ds.foldl (fun acc c => 10 * acc + (c.toNat - 48)) 0

/-- The longest leading run of decimal digits, or `none` if there is none. -/
def parseDigits (cs : List Char) : Option ℕ :=
  let ds := cs.takeWhile Char.isDigit
  if ds.isEmpty then none else some (digitsToNat ds)

/-- JavaScript `parseInt(s, 10)`: skip leading whitespace, read an optional
sign and then the longest leading digit run; `none` models `NaN`. -/
def parseIntJS (s : List Char) : Option ℤ :=
  match s.dropWhile Char.isWhitespace with
  | '-' :: rest => (parseDigits rest).map (fun n => -(n : ℤ))
  | '+' :: rest => (parseDigits rest).map (fun n => (n : ℤ))
  | t => (parseDigits t).map (fun n => (n : ℤ))

/-! ## Key chords -/

/-- Named (non-printable) key symbols accepted by the chord parser.
Modelled from the spec: fixed name table for non-printable/named keys
(arrow keys, function keys, numeric-keypad keys, `Return`, `Escape`, ...). -/
def namedKeys : List String :=
  ["Return", "Escape", "Delete", "BackSpace", "Tab", "space",
   "Up", "Down", "Left", "Right", "Home", "End", "Page_Up", "Page_Down",
   "F1", "F2", "F3", "F4", "F5", "F6", "F7", "F8", "F9", "F10", "F11", "F12",
   "KP_0", "KP_1", "KP_2", "KP_3", "KP_4", "KP_5", "KP_6", "KP_7", "KP_8", "KP_9"]

/-- Modelled from the spec: segment resolution of the chord parser in
`src/xdotoolStringToKeys.ts`, a source file of this repository that is not
among the provided sources. A segment resolves as a case-insensitive modifier
alias (`ctrl`, `alt`, `shift`, `super`/`meta`), via the fixed name table, or
as a single printable character; an unresolved segment fails. -/
def resolveSegment (seg : List Char) : Option String :=
  let lower := seg.map Char.toLower
  if lower = "ctrl".data ∨ lower = "control".data then some "ctrl"
  else if lower = "alt".data then some "alt"
  else if lower = "shift".data then some "shift"
  else if lower = "super".data ∨ lower = "meta".data then some "super"
  else if (⟨seg⟩ : String) ∈ namedKeys then some ⟨seg⟩
  else if seg.length = 1 then some ⟨seg⟩
  else none

/-- Modelled from the spec: `toKeys` from `src/xdotoolStringToKeys.ts`
(not among the provided sources). Grammar: `chord := segment ('+' segment)*`;
the output is the ordered sequence of resolved key symbols. -/
def toKeys (chord : String) : Option (List String) :=
  (splitOnChar '+' chord.data).mapM resolveSegment

/-- A single press or release of one key symbol on the native backend. -/
inductive KeyEvent where
  | press (k : String)
  | release (k : String)
deriving DecidableEq, Repr

/-- Modelled from the spec: the native input backend's press-key operation
(nut-js `keyboard.pressKey(...keys)`, an external collaborator) presses the
given symbols in order. -/
def pressKeyEvents (ks : List String) : List KeyEvent := ks.map KeyEvent.press

/-- Modelled from the spec: the native input backend's release-key operation
(nut-js `keyboard.releaseKey(...keys)`, an external collaborator) releases
the given symbols in the reverse of the given order, so that a chord's
modifiers are released last-pressed-first-released. -/
def releaseKeyEvents (ks : List String) : List KeyEvent :=
  ks.reverse.map KeyEvent.release

/-- The `key` action's execution once the chord has parsed to `ks`:
`await keyboard.pressKey(...keys); await keyboard.releaseKey(...keys)`. -/
def keyActionEvents (ks : List String) : List KeyEvent :=
  pressKeyEvents ks ++ releaseKeyEvents ks

/-- End-to-end key action: parse the chord, then press and release. -/
def keyExec (text : String) : Option (List KeyEvent) :=
  (toKeys text).map keyActionEvents

/-! ## The dispatcher -/

/-- The `action` enum of the tool's input schema. -/
inductive Action where
  | key
  | type
  | mouseMove
  | leftClick
  | leftClickDrag
  | rightClick
  | middleClick
  | doubleClick
  | scroll
  | getScreenshot
  | getCursorPosition
deriving DecidableEq, Repr

/-- The errors the handler can throw (each `throw new Error(...)` site). -/
inductive DispatchError where
  | coordinateOutOfBounds (x y : ℤ) (width height : ℕ)
  | missingText (a : Action)
  | missingCoordinate (a : Action)
  | unknownKeySymbol (text : String)
  | missingDirection
  | invalidAmount (s : String)
  | invalidDirection (s : String)
deriving DecidableEq, Repr

/-- Calls the handler makes: the coordinate-translation step and the calls
into the native backend (nut-js). -/
inductive Effect where
  | translate (p : ℤ × ℤ)
  | pressKeys (ks : List String)
  | releaseKeys (ks : List String)
  | typeText (s : String)
  | getPosition
  | setPosition (p : ℤ × ℤ)
  | leftClick
  | rightClick
  | middleClick
  | doubleClick
  | pressButtonLeft
  | releaseButtonLeft
  | scrollUp (n : ℤ)
  | scrollDown (n : ℤ)
  | scrollLeft (n : ℤ)
  | scrollRight (n : ℤ)
  | takeScreenshot
deriving DecidableEq, Repr

/-- Whether an effect is a call into the native backend (everything except
the pure coordinate-translation step). -/
def Effect.isBackend : Effect → Bool
  | .translate _ => false
  | _ => true

/-- JavaScript falsiness of the optional `text` parameter: `!text` is true
when the field is absent or the empty string. -/
def textFalsy : Option String → Bool
  | none => true
  | some s => s.data.isEmpty

/-- The `scroll` case after its coordinate and text checks: parse
`direction[":"amount]` from `text`, validate, move to the coordinate and
scroll. Faithful to the code's order: the amount check precedes the
direction dispatch, and the mouse move precedes both the scroll and the
invalid-direction failure. -/
def scrollCase (p : ℤ × ℤ) (text : String) : List Effect × Option DispatchError :=
  let parts := splitOnChar ':' text.data
  let direction := parts.headD []
  let amountStr := parts[1]?
  -- `const amount = amountStr ? parseInt(amountStr, 10) : 300` (`none` = NaN)
  let amountNum : Option ℤ :=
    match amountStr with
    | none => some 300
    | some s => if s.isEmpty then some 300 else parseIntJS s
  if direction.isEmpty then ([], some .missingDirection)
  else if amountStr.isSome ∧ (amountNum = none ∨ amountNum.getD 0 ≤ 0) then
    ([], some (.invalidAmount ⟨amountStr.getD []⟩))
  else
    let amount := amountNum.getD 300
    let dl := direction.map Char.toLower
    if dl = "up".data then ([.setPosition p, .scrollUp amount], none)
    else if dl = "down".data then ([.setPosition p, .scrollDown amount], none)
    else if dl = "left".data then ([.setPosition p, .scrollLeft amount], none)
    else if dl = "right".data then ([.setPosition p, .scrollRight amount], none)
    else ([.setPosition p], some (.invalidDirection ⟨direction⟩))

/-- The `switch (action)` body of the handler, after the coordinate has been
translated and bounds-checked. `p?` is the `scaledCoordinate`. -/
def runAction (a : Action) (p? : Option (ℤ × ℤ)) (text : Option String) :
    List Effect × Option DispatchError :=
  match a with
  | .key =>
    if textFalsy text then ([], some (.missingText .key))
    else
      match toKeys (text.getD "") with
      | some ks => ([.pressKeys ks, .releaseKeys ks], none)
      | none => ([], some (.unknownKeySymbol (text.getD "")))
  | .type =>
    if textFalsy text then ([], some (.missingText .type))
    else ([.typeText (text.getD "")], none)
  | .getCursorPosition => ([.getPosition], none)
  | .mouseMove =>
    match p? with
    | none => ([], some (.missingCoordinate .mouseMove))
    | some p => ([.setPosition p], none)
  | .leftClick =>
    ((match p? with | some p => [.setPosition p] | none => []) ++ [.leftClick], none)
  | .leftClickDrag =>
    match p? with
    | none => ([], some (.missingCoordinate .leftClickDrag))
    | some p => ([.pressButtonLeft, .setPosition p, .releaseButtonLeft], none)
  | .rightClick =>
    ((match p? with | some p => [.setPosition p] | none => []) ++ [.rightClick], none)
  | .middleClick =>
    ((match p? with | some p => [.setPosition p] | none => []) ++ [.middleClick], none)
  | .doubleClick =>
    ((match p? with | some p => [.setPosition p] | none => []) ++ [.doubleClick], none)
  | .scroll =>
    match p? with
    | none => ([], some (.missingCoordinate .scroll))
    | some p =>
      if textFalsy text then ([], some (.missingText .scroll))
      else scrollCase p (text.getD "")
  | .getScreenshot => ([.takeScreenshot], none)

/-- The tool handler: if a coordinate is present it is first translated to
logical space (`Math.round(coordinate[i] * scale)`) and bounds-checked
against the live screen, and only then does the `switch (action)` run.
`scaleUp` is the value of `getApiToLogicalScale()`; `w × h` is the live
logical screen size. Returns the effect trace and the thrown error, if any. -/
def dispatch (scaleUp : ℚ) (w h : ℕ) (a : Action) (coordinate : Option (ℚ × ℚ))
    (text : Option String) : List Effect × Option DispatchError :=
  match coordinate with
  | some c =>
    let p : ℤ × ℤ := (toLogicalCoord c.1 scaleUp, toLogicalCoord c.2 scaleUp)
    if p.1 < 0 ∨ (w : ℤ) ≤ p.1 ∨ p.2 < 0 ∨ (h : ℤ) ≤ p.2 then
      ([Effect.translate p], some (.coordinateOutOfBounds p.1 p.2 w h))
    else
      let r := runAction a (some p) text
      (Effect.translate p :: r.1, r.2)
  | none => runAction a none text

/-- The error thrown for each action's missing required field when no
coordinate is supplied (the first failing check of the `switch` body). -/
def missingFieldError : Action → Option DispatchError
  | .key => some (.missingText .key)
  | .type => some (.missingText .type)
  | .mouseMove => some (.missingCoordinate .mouseMove)
  | .leftClickDrag => some (.missingCoordinate .leftClickDrag)
  | .scroll => some (.missingCoordinate .scroll)
  | _ => none

/-! ## Shared lemmas -/

lemma mem_intRange {a b x : ℤ} (hx : x ∈ intRange a b) : a ≤ x ∧ x ≤ b := by
  rw [intRange, List.mem_map] at hx
  obtain ⟨i, hi, rfl⟩ := hx
  rw [List.mem_range] at hi
  exact ⟨by omega, by omega⟩

lemma thickRun_mem {m c v : ℤ} {q : ℤ × ℤ}
    (hq : q ∈ (if 0 ≤ c ∧ c < m then
        ([(v, c)] ++ (if 0 < c then [(v, c - 1)] else [])
          ++ (if c < m - 1 then [(v, c + 1)] else []))
      else ([] : List (ℤ × ℤ)))) :
    q.1 = v ∧ 0 ≤ q.2 ∧ q.2 < m := by
  split_ifs at hq with hg h1 h2 <;>
      simp only [List.mem_append, List.mem_singleton, List.not_mem_nil, or_false,
        List.mem_cons] at hq <;>
      [rcases hq with (rfl | rfl) | rfl; rcases hq with rfl | rfl;
       rcases hq with rfl | rfl; rcases hq with rfl] <;>
    exact ⟨rfl, by omega, by omega⟩

lemma thickRunV_mem {m c v : ℤ} {q : ℤ × ℤ}
    (hq : q ∈ (if 0 ≤ c ∧ c < m then
        ([(c, v)] ++ (if 0 < c then [(c - 1, v)] else [])
          ++ (if c < m - 1 then [(c + 1, v)] else []))
      else ([] : List (ℤ × ℤ)))) :
    q.2 = v ∧ 0 ≤ q.1 ∧ q.1 < m := by
  split_ifs at hq with hg h1 h2 <;>
      simp only [List.mem_append, List.mem_singleton, List.not_mem_nil, or_false,
        List.mem_cons] at hq <;>
      [rcases hq with (rfl | rfl) | rfl; rcases hq with rfl | rfl;
       rcases hq with rfl | rfl; rcases hq with rfl] <;>
    exact ⟨rfl, by omega, by omega⟩

/-! ## Claim theorems -/

lemma maxPixels_pos : (0 : ℝ) < maxPixels := by rw [maxPixels]; norm_num

lemma longEdgeScale_min_form (w h : ℕ) (hw : 0 < w) :
    longEdgeScale w h = min 1 (maxLongEdge / max (w : ℝ) h) := by
  have hmaxpos : (0 : ℝ) < max (w : ℝ) h :=
    lt_max_of_lt_left (by exact_mod_cast hw)
  rw [longEdgeScale]
  split_ifs with hgt
  · rw [min_eq_right (le_of_lt ((div_lt_one hmaxpos).mpr hgt))]
  · rw [min_eq_left]
    rw [le_div_iff₀ hmaxpos, one_mul]
    exact not_lt.mp hgt

lemma pixelScale_min_form (w h : ℕ) (hw : 0 < w) (hh : 0 < h) :
    pixelScale w h = min 1 (Real.sqrt (maxPixels / ((w : ℝ) * h))) := by
  have hprod : (0 : ℝ) < (w : ℝ) * h :=
    mul_pos (by exact_mod_cast hw) (by exact_mod_cast hh)
  rw [pixelScale]
  split_ifs with hgt
  · rw [min_eq_right]
    apply le_of_lt
    rw [Real.sqrt_lt' one_pos, one_pow]
    exact (div_lt_one hprod).mpr hgt
  · rw [min_eq_left]
    rw [Real.le_sqrt (by norm_num) (div_nonneg maxPixels_pos.le hprod.le), one_pow]
    rw [le_div_iff₀ hprod, one_mul]
    exact not_lt.mp hgt

/-- C1: for every positive logical width and height, the downsampling factor
equals `min (min 1 (1568 / max w h)) (min 1 (√(maxPixels / (w*h))))` and is
always at most 1 (it never enlarges). -/
theorem scale_is_min_and_le_one (w h : ℕ) (hw : 0 < w) (hh : 0 < h) :
    getSizeToApiScale w h =
      min (min 1 (maxLongEdge / max (w : ℝ) h))
        (min 1 (Real.sqrt (maxPixels / ((w : ℝ) * h)))) ∧
    getSizeToApiScale w h ≤ 1 := by
  constructor
  · rw [getSizeToApiScale, longEdgeScale_min_form w h hw, pixelScale_min_form w h hw hh]
  · calc getSizeToApiScale w h ≤ longEdgeScale w h := min_le_left _ _
    _ ≤ 1 := by rw [longEdgeScale_min_form w h hw]; exact min_le_left _ _

theorem scale_is_min_and_le_one_witness :
    0 < 3840 ∧ 0 < 2160 ∧
      (getSizeToApiScale 3840 2160 =
        min (min 1 (maxLongEdge / max ((3840 : ℕ) : ℝ) ((2160 : ℕ) : ℝ)))
          (min 1 (Real.sqrt (maxPixels / (((3840 : ℕ) : ℝ) * ((2160 : ℕ) : ℝ))))) ∧
      getSizeToApiScale 3840 2160 ≤ 1) :=
  ⟨by norm_num, by norm_num, scale_is_min_and_le_one 3840 2160 (by norm_num) (by norm_num)⟩

lemma scale_3840_2160 :
    getSizeToApiScale 3840 2160 = Real.sqrt (maxPixels / 8294400) := by
  have hsqrt_lt : Real.sqrt (maxPixels / 8294400) < 1568 / 3840 := by
    rw [Real.sqrt_lt' (by norm_num), maxPixels]
    norm_num
  rw [getSizeToApiScale, longEdgeScale, pixelScale]
  have hmax : max ((3840 : ℕ) : ℝ) ((2160 : ℕ) : ℝ) = 3840 := by
    rw [max_eq_left] <;> norm_num
  have hprod : ((3840 : ℕ) : ℝ) * ((2160 : ℕ) : ℝ) = 8294400 := by norm_num
  rw [hmax, hprod]
  rw [if_pos (by rw [maxLongEdge]; norm_num), if_pos (by rw [maxPixels]; norm_num)]
  rw [maxLongEdge]
  rw [min_eq_right (le_of_lt hsqrt_lt)]

lemma scale_3840_2160_bounds :
    (0.381 : ℝ) < getSizeToApiScale 3840 2160 ∧
      getSizeToApiScale 3840 2160 < 0.382 := by
  rw [scale_3840_2160]
  constructor
  · rw [Real.lt_sqrt (by norm_num), maxPixels]
    norm_num
  · rw [Real.sqrt_lt' (by norm_num), maxPixels]
    norm_num

lemma scale_800_600 : getSizeToApiScale 800 600 = 1 := by
  rw [getSizeToApiScale, longEdgeScale, pixelScale]
  rw [if_neg (by rw [maxLongEdge]; norm_num [max_le_iff]),
    if_neg (by rw [maxPixels]; norm_num)]
  exact min_self 1

/-- C7: a screenshot frame is resized to `⌊w*s⌋ × ⌊h*s⌋` exactly when the
scale `s` is `< 1` (otherwise untouched), and the text payload reports the
final image's dimensions; a 3840×2160 screen yields `s ≈ 0.3813` and reported
dimensions 1464×823, while an 800×600 screen is reported unchanged. -/
theorem screenshot_resize_and_report :
    (∀ w h : ℕ, (screenshotReport w h).image_width = (screenshotDims w h).1 ∧
        (screenshotReport w h).image_height = (screenshotDims w h).2) ∧
    (∀ w h : ℕ, getSizeToApiScale w h < 1 →
      screenshotDims w h =
        (⌊(w : ℝ) * getSizeToApiScale w h⌋₊, ⌊(h : ℝ) * getSizeToApiScale w h⌋₊)) ∧
    (∀ w h : ℕ, 1 ≤ getSizeToApiScale w h → screenshotDims w h = (w, h)) ∧
    getSizeToApiScale 3840 2160 < 1 ∧
    (0.381 : ℝ) < getSizeToApiScale 3840 2160 ∧
    getSizeToApiScale 3840 2160 < 0.382 ∧
    screenshotDims 3840 2160 = (1464, 823) ∧
    screenshotDims 800 600 = (800, 600) := by
  have hs1 : getSizeToApiScale 3840 2160 < 1 := by
    rw [scale_3840_2160, Real.sqrt_lt' one_pos, one_pow, maxPixels]
    norm_num
  have hq0 : (0 : ℝ) ≤ maxPixels / 8294400 := div_nonneg maxPixels_pos.le (by norm_num)
  have hs0 : (0 : ℝ) ≤ getSizeToApiScale 3840 2160 := by
    rw [scale_3840_2160]; exact Real.sqrt_nonneg _
  refine ⟨fun w h => ⟨rfl, rfl⟩, ?_, ?_, hs1, scale_3840_2160_bounds.1,
    scale_3840_2160_bounds.2, ?_, ?_⟩
  · intro w h hlt
    rw [screenshotDims, if_pos hlt]
  · intro w h hge
    rw [screenshotDims, if_neg (not_lt.mpr hge)]
  · rw [screenshotDims, if_pos hs1]
    have hwlo : (1464 : ℝ) ≤ (3840 : ℝ) * getSizeToApiScale 3840 2160 := by
      rw [scale_3840_2160]
      have hle : (1464 / 3840 : ℝ) ≤ Real.sqrt (maxPixels / 8294400) := by
        rw [Real.le_sqrt (by norm_num) hq0, maxPixels]
        norm_num
      calc (1464 : ℝ) = 3840 * (1464 / 3840) := by norm_num
      _ ≤ 3840 * Real.sqrt (maxPixels / 8294400) :=
        mul_le_mul_of_nonneg_left hle (by norm_num)
    have hwhi : (3840 : ℝ) * getSizeToApiScale 3840 2160 < 1465 := by
      rw [scale_3840_2160]
      have hlt : Real.sqrt (maxPixels / 8294400) < 1465 / 3840 := by
        rw [Real.sqrt_lt' (by norm_num), maxPixels]
        norm_num
      calc (3840 : ℝ) * Real.sqrt (maxPixels / 8294400)
          < (3840 : ℝ) * (1465 / 3840) :=
        mul_lt_mul_of_pos_left hlt (by norm_num)
      _ = 1465 := by norm_num
    have hhlo : (823 : ℝ) ≤ (2160 : ℝ) * getSizeToApiScale 3840 2160 := by
      rw [scale_3840_2160]
      have hle : (823 / 2160 : ℝ) ≤ Real.sqrt (maxPixels / 8294400) := by
        rw [Real.le_sqrt (by norm_num) hq0, maxPixels]
        norm_num
      calc (823 : ℝ) = 2160 * (823 / 2160) := by norm_num
      _ ≤ 2160 * Real.sqrt (maxPixels / 8294400) :=
        mul_le_mul_of_nonneg_left hle (by norm_num)
    have hhhi : (2160 : ℝ) * getSizeToApiScale 3840 2160 < 824 := by
      rw [scale_3840_2160]
      have hlt : Real.sqrt (maxPixels / 8294400) < 824 / 2160 := by
        rw [Real.sqrt_lt' (by norm_num), maxPixels]
        norm_num
      calc (2160 : ℝ) * Real.sqrt (maxPixels / 8294400)
          < (2160 : ℝ) * (824 / 2160) :=
        mul_lt_mul_of_pos_left hlt (by norm_num)
      _ = 824 := by norm_num
    have h38 : ((3840 : ℕ) : ℝ) = (3840 : ℝ) := by norm_num
    have h21 : ((2160 : ℕ) : ℝ) = (2160 : ℝ) := by norm_num
    have hwfl : ⌊(3840 : ℝ) * getSizeToApiScale 3840 2160⌋₊ = 1464 := by
      rw [Nat.floor_eq_iff (mul_nonneg (by norm_num) hs0)]
      constructor
      · exact_mod_cast hwlo
      · push_cast
        linarith
    have hhfl : ⌊(2160 : ℝ) * getSizeToApiScale 3840 2160⌋₊ = 823 := by
      rw [Nat.floor_eq_iff (mul_nonneg (by norm_num) hs0)]
      constructor
      · exact_mod_cast hhlo
      · push_cast
        linarith
    rw [h38, h21, hwfl, hhfl]
  · rw [screenshotDims, scale_800_600, if_neg (by norm_num)]

/-- C6: for every frame of width `w` and height `h` and every marker centre
`(cx, cy)` (including centres partially or fully outside the frame), the
crosshair-drawing loops write pixels only at positions inside
`[0, w) × [0, h)`; drawing silently clips and never fails (it is a total
function of the centre). -/
theorem crosshair_writes_in_bounds (w h cx cy : ℤ) (p : ℤ × ℤ)
    (hp : p ∈ crosshairWrites w h cx cy) :
    0 ≤ p.1 ∧ p.1 < w ∧ 0 ≤ p.2 ∧ p.2 < h := by
  rw [crosshairWrites, List.mem_append] at hp
  rcases hp with hp | hp
  · rw [horizontalWrites, List.mem_flatMap] at hp
    obtain ⟨x, hxr, hpx⟩ := hp
    have hxb := mem_intRange hxr
    have h0x : (0 : ℤ) ≤ x := le_trans (le_max_left 0 _) hxb.1
    have hxw : x ≤ w - 1 := le_trans hxb.2 (min_le_left _ _)
    obtain ⟨he, hy0, hyh⟩ := thickRun_mem hpx
    exact ⟨by omega, by omega, hy0, hyh⟩
  · rw [verticalWrites, List.mem_flatMap] at hp
    obtain ⟨y, hyr, hpy⟩ := hp
    have hyb := mem_intRange hyr
    have h0y : (0 : ℤ) ≤ y := le_trans (le_max_left 0 _) hyb.1
    have hyh : y ≤ h - 1 := le_trans hyb.2 (min_le_left _ _)
    obtain ⟨he, hx0, hxw⟩ := thickRunV_mem hpy
    exact ⟨hx0, hxw, by omega, by omega⟩

theorem crosshair_writes_in_bounds_witness :
    ((0 : ℤ), (0 : ℤ)) ∈ crosshairWrites 3 3 0 0 ∧
      (0 ≤ ((0 : ℤ), (0 : ℤ)).1 ∧ ((0 : ℤ), (0 : ℤ)).1 < 3 ∧
       0 ≤ ((0 : ℤ), (0 : ℤ)).2 ∧ ((0 : ℤ), (0 : ℤ)).2 < 3) :=
  ⟨by decide, crosshair_writes_in_bounds 3 3 0 0 ((0 : ℤ), (0 : ℤ)) (by decide)⟩

/-- C9: a chord parses to an ordered symbol sequence, and the `key` action
presses all symbols in parse order and then releases them in the reverse of
press order; `"ctrl+alt+Delete"` parses to `[ctrl, alt, Delete]` and releases
`[Delete, alt, ctrl]`. (The chord parser and the native keyboard backend are
modelled from the spec; see `toKeys` and `releaseKeyEvents`.) -/
theorem key_chord_press_then_reverse_release :
    toKeys "ctrl+alt+Delete" = some ["ctrl", "alt", "Delete"] ∧
    keyExec "ctrl+alt+Delete" = some
      [KeyEvent.press "ctrl", KeyEvent.press "alt", KeyEvent.press "Delete",
       KeyEvent.release "Delete", KeyEvent.release "alt", KeyEvent.release "ctrl"] ∧
    (∀ ks : List String,
      keyActionEvents ks = ks.map KeyEvent.press ++ ks.reverse.map KeyEvent.release) := by
  refine ⟨by decide, by decide, fun ks => rfl⟩

theorem screenshot_resize_and_report_witness :
    getSizeToApiScale 3840 2160 < 1 ∧
      screenshotDims 3840 2160 =
        (⌊((3840 : ℕ) : ℝ) * getSizeToApiScale 3840 2160⌋₊,
         ⌊((2160 : ℕ) : ℝ) * getSizeToApiScale 3840 2160⌋₊) :=
  ⟨screenshot_resize_and_report.2.2.2.1,
    screenshot_resize_and_report.2.1 3840 2160 screenshot_resize_and_report.2.2.2.1⟩

lemma roundQ_le (q : ℚ) : ((roundQ q : ℤ) : ℚ) ≤ q + 1/2 := by
  rw [roundQ]
  exact Int.floor_le _

lemma lt_roundQ (q : ℚ) : q - 1/2 < ((roundQ q : ℤ) : ℚ) := by
  rw [roundQ]
  have := Int.sub_one_lt_floor (q + 1/2)
  linarith

/-- C5 (amended): the round trip image → logical of a logical coordinate,
`toLogicalCoord (toImageCoord c (1/s)) (1/s)`, differs from `c` by at most
`1/(2s) + 1/2`; in particular by at most 1 whenever `s > 1/3`, but NOT by at
most 1 for every producible scale (see the counterexample at `s = 1/4`). -/
theorem roundtrip_error_bound (c : ℤ) (s : ℚ) (hs : 0 < s) (hs1 : s ≤ 1) :
    |((toLogicalCoord ((toImageCoord c (1/s) : ℤ) : ℚ) (1/s) : ℤ) : ℚ) - (c : ℚ)|
        ≤ 1/(2*s) + 1/2 ∧
    (1/3 < s →
      (toLogicalCoord ((toImageCoord c (1/s) : ℤ) : ℚ) (1/s) - c).natAbs ≤ 1) := by
  have hsne : s ≠ 0 := ne_of_gt hs
  have him : toImageCoord c (1/s) = roundQ ((c : ℚ) * s) := by
    rw [toImageCoord]
    congr 1
    field_simp
  have hrt : ∀ A : ℤ, toLogicalCoord (A : ℚ) (1/s) = roundQ ((A : ℚ) / s) := by
    intro A
    rw [toLogicalCoord, mul_one_div]
  rw [him, hrt]
  have ha1 : ((roundQ ((c : ℚ) * s)) : ℚ) ≤ (c : ℚ) * s + 1/2 := roundQ_le _
  have ha2 : (c : ℚ) * s - 1/2 < ((roundQ ((c : ℚ) * s)) : ℚ) := lt_roundQ _
  generalize roundQ ((c : ℚ) * s) = A at ha1 ha2 ⊢
  have hb1 : ((roundQ ((A : ℚ) / s)) : ℚ) ≤ (A : ℚ) / s + 1/2 := roundQ_le _
  have hb2 : (A : ℚ) / s - 1/2 < ((roundQ ((A : ℚ) / s)) : ℚ) := lt_roundQ _
  generalize roundQ ((A : ℚ) / s) = B at hb1 hb2 ⊢
  have hms1 : (A : ℚ)/s ≤ (c : ℚ) + 1/(2*s) := by
    rw [div_le_iff₀ hs]
    have heq : ((c : ℚ) + 1/(2*s)) * s = (c : ℚ) * s + 1/2 := by
      field_simp
      ring
    rw [heq]
    exact ha1
  have hms2 : (c : ℚ) - 1/(2*s) < (A : ℚ)/s := by
    rw [lt_div_iff₀ hs]
    have heq : ((c : ℚ) - 1/(2*s)) * s = (c : ℚ) * s - 1/2 := by
      field_simp
      ring
    rw [heq]
    exact ha2
  have hbound : |(B : ℚ) - (c : ℚ)| ≤ 1/(2*s) + 1/2 := by
    rw [abs_le]
    constructor <;> linarith
  refine ⟨hbound, fun h3 => ?_⟩
  have hlt : 1/(2*s) < 3/2 := by
    rw [div_lt_iff₀ (by positivity)]
    linarith
  have habs : |(B : ℚ) - (c : ℚ)| < 2 := lt_of_le_of_lt hbound (by linarith)
  have hcast : (((B - c).natAbs : ℤ) : ℚ) = |(B : ℚ) - (c : ℚ)| := by
    rw [← Int.abs_eq_natAbs]
    push_cast
    rfl
  have hq2 : (((B - c).natAbs : ℤ) : ℚ) < 2 := by rw [hcast]; exact habs
  have h2 : (B - c).natAbs < 2 := by exact_mod_cast hq2
  omega

theorem roundtrip_error_bound_witness :
    0 < (1 : ℚ) ∧ (1 : ℚ) ≤ 1 ∧
      (|((toLogicalCoord ((toImageCoord 7 (1/(1 : ℚ)) : ℤ) : ℚ) (1/(1 : ℚ)) : ℤ) : ℚ)
            - ((7 : ℤ) : ℚ)| ≤ 1/(2*(1 : ℚ)) + 1/2 ∧
        (1/3 < (1 : ℚ) →
          (toLogicalCoord ((toImageCoord 7 (1/(1 : ℚ)) : ℤ) : ℚ) (1/(1 : ℚ)) - 7).natAbs
            ≤ 1)) :=
  ⟨by norm_num, le_refl 1, roundtrip_error_bound 7 1 (by norm_num) (le_refl 1)⟩

/-- C5 (counterexample): at the producible scale `s = 1/4` (the screen
6272×100 yields `getSizeToApiScale = 1/4`), the logical coordinate 2 round
trips to 4: `toImageCoord 2 (1/s) = 1` and `toLogicalCoord 1 (1/s) = 4`,
an error of 2, refuting the claimed ±1 bound. -/
theorem roundtrip_counterexample :
    getSizeToApiScale 6272 100 = (1/4 : ℝ) ∧
    toImageCoord 2 (1/(1/4 : ℚ)) = 1 ∧
    toLogicalCoord ((1 : ℤ) : ℚ) (1/(1/4 : ℚ)) = 4 ∧
    1 < (toLogicalCoord ((toImageCoord 2 (1/(1/4 : ℚ)) : ℤ) : ℚ) (1/(1/4 : ℚ)) - 2).natAbs := by
  have him : toImageCoord 2 (1/(1/4 : ℚ)) = 1 := by
    rw [toImageCoord, roundQ]
    norm_num
  have hlog : toLogicalCoord ((1 : ℤ) : ℚ) (1/(1/4 : ℚ)) = 4 := by
    rw [toLogicalCoord, roundQ]
    norm_num
  refine ⟨?_, him, hlog, ?_⟩
  · rw [getSizeToApiScale, longEdgeScale, pixelScale]
    have hmax : max ((6272 : ℕ) : ℝ) ((100 : ℕ) : ℝ) = 6272 := by
      rw [max_eq_left] <;> norm_num
    rw [hmax]
    rw [if_pos (by rw [maxLongEdge]; norm_num),
      if_neg (by rw [maxPixels]; norm_num), maxLongEdge]
    rw [min_eq_left (by norm_num)]
    norm_num
  · rw [him, hlog]
    norm_num

/-- C8 (amended): the crosshair centre drawn by `get_screenshot` is the live
cursor position converted with `Math.floor`, i.e. `⌊cursor * scale_down⌋` —
floor, not round. -/
theorem marker_center_is_floor (c : ℤ) (s : ℚ) (hs : 0 < s) :
    markerCenter c (1/s) = ⌊(c : ℚ) * s⌋ := by
  rw [markerCenter]
  congr 1
  field_simp

theorem marker_center_is_floor_witness :
    0 < (1/2 : ℚ) ∧ markerCenter 1 (1/(1/2 : ℚ)) = ⌊((1 : ℤ) : ℚ) * (1/2 : ℚ)⌋ :=
  ⟨by norm_num, marker_center_is_floor 1 (1/2) (by norm_num)⟩

/-- C8 (counterexample): at the producible scale `s = 1/2` (screen 3136×100),
the cursor x-coordinate 1 is placed by the code at
`markerCenter 1 (1/s) = ⌊1/2⌋ = 0`, while the claimed
`toImage`/`Math.round` conversion gives `toImageCoord 1 (1/s) = 1`. -/
theorem marker_center_counterexample :
    getSizeToApiScale 3136 100 = (1/2 : ℝ) ∧
    markerCenter 1 (1/(1/2 : ℚ)) = 0 ∧
    toImageCoord 1 (1/(1/2 : ℚ)) = 1 ∧
    markerCenter 1 (1/(1/2 : ℚ)) ≠ toImageCoord 1 (1/(1/2 : ℚ)) := by
  have hmc : markerCenter 1 (1/(1/2 : ℚ)) = 0 := by
    rw [markerCenter]
    norm_num
  have hic : toImageCoord 1 (1/(1/2 : ℚ)) = 1 := by
    rw [toImageCoord, roundQ]
    norm_num
  refine ⟨?_, hmc, hic, ?_⟩
  · rw [getSizeToApiScale, longEdgeScale, pixelScale]
    have hmax : max ((3136 : ℕ) : ℝ) ((100 : ℕ) : ℝ) = 3136 := by
      rw [max_eq_left] <;> norm_num
    rw [hmax]
    rw [if_pos (by rw [maxLongEdge]; norm_num),
      if_neg (by rw [maxPixels]; norm_num), maxLongEdge]
    rw [min_eq_left (by norm_num)]
    norm_num
  · rw [hmc, hic]
    norm_num

lemma dispatch_some_eq (u : ℚ) (w h : ℕ) (a : Action) (cx cy : ℚ) (t : Option String) :
    dispatch u w h a (some (cx, cy)) t =
      (if toLogicalCoord cx u < 0 ∨ (w : ℤ) ≤ toLogicalCoord cx u
          ∨ toLogicalCoord cy u < 0 ∨ (h : ℤ) ≤ toLogicalCoord cy u then
        ([Effect.translate (toLogicalCoord cx u, toLogicalCoord cy u)],
         some (.coordinateOutOfBounds (toLogicalCoord cx u) (toLogicalCoord cy u) w h))
      else
        (Effect.translate (toLogicalCoord cx u, toLogicalCoord cy u)
            :: (runAction a (some (toLogicalCoord cx u, toLogicalCoord cy u)) t).1,
         (runAction a (some (toLogicalCoord cx u, toLogicalCoord cy u)) t).2)) := by
  simp only [dispatch]

lemma scrollCase_snd_ne_oob (p : ℤ × ℤ) (text : String) (x y : ℤ) (W H : ℕ) :
    (scrollCase p text).2 ≠ some (.coordinateOutOfBounds x y W H) := by
  simp only [scrollCase]
  split_ifs <;> simp

lemma runAction_snd_ne_oob (a : Action) (p? : Option (ℤ × ℤ)) (t : Option String)
    (x y : ℤ) (W H : ℕ) :
    (runAction a p? t).2 ≠ some (.coordinateOutOfBounds x y W H) := by
  cases a with
  | key =>
    cases htf : textFalsy t with
    | true => simp [runAction, htf]
    | false =>
      cases htk : toKeys (t.getD "") with
      | none => simp [runAction, htf, htk]
      | some ks => simp [runAction, htf, htk]
  | type => cases htf : textFalsy t <;> simp [runAction, htf]
  | getCursorPosition => simp [runAction]
  | mouseMove => cases p? <;> simp [runAction]
  | leftClick => cases p? <;> simp [runAction]
  | leftClickDrag => cases p? <;> simp [runAction]
  | rightClick => cases p? <;> simp [runAction]
  | middleClick => cases p? <;> simp [runAction]
  | doubleClick => cases p? <;> simp [runAction]
  | scroll =>
    cases p? with
    | none => simp [runAction]
    | some p =>
      cases htf : textFalsy t with
      | true => simp [runAction, htf]
      | false =>
        simp only [runAction, htf, Bool.false_eq_true, if_false]
        exact scrollCase_snd_ne_oob p (t.getD "") x y W H
  | getScreenshot => simp [runAction]

/-- C2: every request carrying a coordinate first translates it to logical
space as `round(x / scale_down)` (the head of the effect trace), and the call
fails with `CoordinateOutOfBounds` — reporting the translated coordinate and
the live screen bounds — exactly when the translated point falls outside
`[0, w) × [0, h)`; in particular, on a 1920×1080 screen a coordinate mapping
to logical (2000, 10) fails reporting width 1920 and height 1080. -/
theorem coordinate_translation_and_bounds (s : ℚ) (hs : 0 < s) (w h : ℕ) (a : Action)
    (cx cy : ℚ) (text : Option String) :
    (dispatch (1/s) w h a (some (cx, cy)) text).1.head? =
        some (Effect.translate (roundQ (cx / s), roundQ (cy / s))) ∧
    ((∃ x y W H, (dispatch (1/s) w h a (some (cx, cy)) text).2
          = some (.coordinateOutOfBounds x y W H))
        ↔ (roundQ (cx / s) < 0 ∨ (w : ℤ) ≤ roundQ (cx / s)
            ∨ roundQ (cy / s) < 0 ∨ (h : ℤ) ≤ roundQ (cy / s))) ∧
    ((roundQ (cx / s) < 0 ∨ (w : ℤ) ≤ roundQ (cx / s)
        ∨ roundQ (cy / s) < 0 ∨ (h : ℤ) ≤ roundQ (cy / s)) →
      (dispatch (1/s) w h a (some (cx, cy)) text).2
        = some (.coordinateOutOfBounds (roundQ (cx / s)) (roundQ (cy / s)) w h)) ∧
    (w = 1920 → h = 1080 → roundQ (cx / s) = 2000 → roundQ (cy / s) = 10 →
      (dispatch (1/s) w h a (some (cx, cy)) text).2
        = some (.coordinateOutOfBounds 2000 10 1920 1080)) := by
  have hx : toLogicalCoord cx (1/s) = roundQ (cx / s) := by
    rw [toLogicalCoord, mul_one_div]
  have hy : toLogicalCoord cy (1/s) = roundQ (cy / s) := by
    rw [toLogicalCoord, mul_one_div]
  rw [dispatch_some_eq, hx, hy]
  by_cases hb : roundQ (cx / s) < 0 ∨ (w : ℤ) ≤ roundQ (cx / s)
      ∨ roundQ (cy / s) < 0 ∨ (h : ℤ) ≤ roundQ (cy / s)
  · rw [if_pos hb]
    refine ⟨rfl, ⟨fun _ => hb, fun _ => ⟨_, _, _, _, rfl⟩⟩, fun _ => rfl, ?_⟩
    rintro rfl rfl he1 he2
    rw [he1, he2]
  · rw [if_neg hb]
    refine ⟨rfl, ⟨?_, fun hc => absurd hc hb⟩, fun hc => absurd hc hb, ?_⟩
    · rintro ⟨x, y, W, H, hcon⟩
      exact absurd hcon (runAction_snd_ne_oob a _ text x y W H)
    · rintro rfl rfl he1 he2
      rw [he1, he2] at hb
      exact absurd (by norm_num : ((1920 : ℕ) : ℤ) ≤ 2000) (fun hcon => hb (Or.inr (Or.inl hcon)))

theorem coordinate_translation_and_bounds_witness :
    0 < (1 : ℚ) ∧
      (dispatch (1/(1 : ℚ)) 1920 1080 .mouseMove (some (2000, 10)) none).2
        = some (.coordinateOutOfBounds 2000 10 1920 1080) :=
  ⟨by norm_num,
    (coordinate_translation_and_bounds 1 (by norm_num) 1920 1080 .mouseMove
        2000 10 none).2.2.2 rfl rfl
      (by rw [roundQ]; norm_num) (by rw [roundQ]; norm_num)⟩

/-- C3 (counterexample): a scroll request with an in-bounds coordinate and no
text fails with the missing-text error, but the coordinate translation has
already happened — the effect trace contains the translation step — refuting
the claimed validate-before-translate ordering. -/
theorem validation_after_translation_counterexample :
    (dispatch 1 100 100 .scroll (some (10, 10)) none).1 = [Effect.translate (10, 10)] ∧
    (dispatch 1 100 100 .scroll (some (10, 10)) none).2 = some (.missingText .scroll) := by
  have ht : toLogicalCoord 10 1 = 10 := by
    rw [toLogicalCoord, roundQ]
    norm_num
  rw [dispatch_some_eq, ht]
  rw [if_neg (by decide)]
  exact ⟨rfl, rfl⟩

/-- C3 (amended): a request missing a required field always fails, and no
backend call is made; when no coordinate is supplied nothing at all precedes
the missing-parameter error. However (contrary to the original claim), a
supplied coordinate is translated and bounds-checked before field validation,
so the failure may be the bounds error instead. -/
theorem missing_field_fails_before_backend (u : ℚ) (w h : ℕ) (a : Action)
    (coord : Option (ℚ × ℚ)) (text : Option String)
    (hmiss : (a = .key ∧ textFalsy text = true) ∨ (a = .type ∧ textFalsy text = true)
      ∨ (a = .mouseMove ∧ coord = none) ∨ (a = .leftClickDrag ∧ coord = none)
      ∨ (a = .scroll ∧ (coord = none ∨ textFalsy text = true))) :
    ((dispatch u w h a coord text).2).isSome = true ∧
    (∀ e ∈ (dispatch u w h a coord text).1, e.isBackend = false) ∧
    (coord = none → dispatch u w h a coord text = ([], missingFieldError a)) := by
  have key_stop : ∀ p?, textFalsy text = true →
      runAction .key p? text = ([], some (.missingText .key)) := by
    intro p? ht
    simp [runAction, ht]
  have type_stop : ∀ p?, textFalsy text = true →
      runAction .type p? text = ([], some (.missingText .type)) := by
    intro p? ht
    simp [runAction, ht]
  have scroll_stop : ∀ p, textFalsy text = true →
      runAction .scroll (some p) text = ([], some (.missingText .scroll)) := by
    intro p ht
    simp [runAction, ht]
  have main : ∀ err : DispatchError,
      (∀ p, runAction a (some p) text = ([], some err)) →
      (runAction a none text = ([], some err)) →
      ((dispatch u w h a coord text).2).isSome = true ∧
        (∀ e ∈ (dispatch u w h a coord text).1, e.isBackend = false) := by
    intro err hra hrn
    cases coord with
    | none =>
      rw [dispatch, hrn]
      exact ⟨rfl, by simp⟩
    | some c =>
      obtain ⟨ccx, ccy⟩ := c
      rw [dispatch_some_eq]
      split_ifs with hb
      · refine ⟨rfl, ?_⟩
        intro e he
        simp only [List.mem_singleton] at he
        rw [he]
        rfl
      · rw [hra]
        refine ⟨rfl, ?_⟩
        intro e he
        simp only [List.mem_cons, List.not_mem_nil, or_false] at he
        rw [he]
        rfl
  rcases hmiss with ⟨rfl, ht⟩ | ⟨rfl, ht⟩ | ⟨rfl, hc⟩ | ⟨rfl, hc⟩ | ⟨rfl, hc⟩
  · refine ⟨(main _ (fun p => key_stop _ ht) (key_stop _ ht)).1,
      (main _ (fun p => key_stop _ ht) (key_stop _ ht)).2, ?_⟩
    rintro rfl
    rw [dispatch, key_stop none ht, missingFieldError]
  · refine ⟨(main _ (fun p => type_stop _ ht) (type_stop _ ht)).1,
      (main _ (fun p => type_stop _ ht) (type_stop _ ht)).2, ?_⟩
    rintro rfl
    rw [dispatch, type_stop none ht, missingFieldError]
  · subst hc
    rw [dispatch]
    exact ⟨rfl, by simp [runAction], fun _ => rfl⟩
  · subst hc
    rw [dispatch]
    exact ⟨rfl, by simp [runAction], fun _ => rfl⟩
  · rcases hc with rfl | ht
    · rw [dispatch]
      exact ⟨rfl, by simp [runAction], fun _ => rfl⟩
    · have hrn : runAction .scroll none text = ([], some (.missingCoordinate .scroll)) := rfl
      cases coord with
      | none =>
        rw [dispatch, hrn]
        exact ⟨rfl, by simp, fun _ => rfl⟩
      | some c =>
        obtain ⟨ccx, ccy⟩ := c
        refine ⟨?_, ?_, by rintro ⟨⟩⟩
        · rw [dispatch_some_eq]
          split_ifs with hb
          · rfl
          · rw [scroll_stop _ ht]
            rfl
        · rw [dispatch_some_eq]
          split_ifs with hb
          · intro e he
            simp only [List.mem_singleton] at he
            rw [he]
            rfl
          · rw [scroll_stop _ ht]
            intro e he
            simp only [List.mem_cons, List.not_mem_nil, or_false] at he
            rw [he]
            rfl

theorem missing_field_fails_before_backend_witness :
    ((Action.scroll = Action.key ∧ textFalsy none = true) ∨
      (Action.scroll = Action.type ∧ textFalsy none = true) ∨
      (Action.scroll = Action.mouseMove ∧ (none : Option (ℚ × ℚ)) = none) ∨
      (Action.scroll = Action.leftClickDrag ∧ (none : Option (ℚ × ℚ)) = none) ∨
      (Action.scroll = Action.scroll ∧
        ((none : Option (ℚ × ℚ)) = none ∨ textFalsy none = true))) ∧
    (((dispatch 1 100 100 .scroll none none).2).isSome = true ∧
      (∀ e ∈ (dispatch 1 100 100 .scroll none none).1, e.isBackend = false) ∧
      ((none : Option (ℚ × ℚ)) = none →
        dispatch 1 100 100 .scroll none none = ([], missingFieldError .scroll))) :=
  ⟨by simp, missing_field_fails_before_backend 1 100 100 .scroll none none
    (by simp)⟩

lemma dispatch_scroll_run (u : ℚ) (w h : ℕ) (cx cy : ℚ) (text : String) (p : ℤ × ℤ)
    (hp : p = (toLogicalCoord cx u, toLogicalCoord cy u))
    (htext : textFalsy (some text) = false)
    (hin : ¬(p.1 < 0 ∨ (w : ℤ) ≤ p.1 ∨ p.2 < 0 ∨ (h : ℤ) ≤ p.2)) :
    dispatch u w h .scroll (some (cx, cy)) (some text) =
      (Effect.translate p :: (scrollCase p text).1, (scrollCase p text).2) := by
  subst hp
  rw [dispatch_some_eq, if_neg hin]
  simp [runAction, htext]

lemma scrollCase_dir_empty (p : ℤ × ℤ) (text : String)
    (hdir : ((splitOnChar ':' text.data).headD []).isEmpty = true) :
    scrollCase p text = ([], some .missingDirection) := by
  simp only [scrollCase]
  rw [if_pos hdir]

lemma scrollCase_invalid_amount (p : ℤ × ℤ) (text : String) (sa : List Char)
    (hdir : ((splitOnChar ':' text.data).headD []).isEmpty = false)
    (hsa : (splitOnChar ':' text.data)[1]? = some sa)
    (hne : sa.isEmpty = false)
    (hbad : (parseIntJS sa).getD 0 ≤ 0) :
    scrollCase p text = ([], some (.invalidAmount ⟨sa⟩)) := by
  have hNum : (if sa.isEmpty = true then some (300 : ℤ) else parseIntJS sa)
      = parseIntJS sa := by
    rw [hne]
    exact if_neg (by exact Bool.false_ne_true)
  simp only [scrollCase, hsa]
  rw [if_neg (by rw [hdir]; exact Bool.false_ne_true)]
  rw [if_pos ⟨rfl, by rw [hNum]; exact Or.inr hbad⟩]
  rfl

lemma scrollCase_dir_cases (p : ℤ × ℤ) (text : String) (v : ℤ)
    (hdir : ((splitOnChar ':' text.data).headD []).isEmpty = false)
    (hnum : (match (splitOnChar ':' text.data)[1]? with
      | none => some (300 : ℤ)
      | some s => if s.isEmpty then some 300 else parseIntJS s) = some v)
    (hv : 0 < v) :
    scrollCase p text =
      (if ((splitOnChar ':' text.data).headD []).map Char.toLower = "up".data then
        ([Effect.setPosition p, Effect.scrollUp v], none)
      else if ((splitOnChar ':' text.data).headD []).map Char.toLower = "down".data then
        ([Effect.setPosition p, Effect.scrollDown v], none)
      else if ((splitOnChar ':' text.data).headD []).map Char.toLower = "left".data then
        ([Effect.setPosition p, Effect.scrollLeft v], none)
      else if ((splitOnChar ':' text.data).headD []).map Char.toLower = "right".data then
        ([Effect.setPosition p, Effect.scrollRight v], none)
      else
        ([Effect.setPosition p],
          some (.invalidDirection ⟨(splitOnChar ':' text.data).headD []⟩))) := by
  simp only [scrollCase, hnum]
  rw [if_neg (by rw [hdir]; exact Bool.false_ne_true)]
  rw [if_neg ?hcond, Option.getD_some]
  case hcond =>
    rintro ⟨-, hq | hq⟩
    · exact Option.noConfusion hq
    · rw [Option.getD_some] at hq
      exact absurd hq (not_le.mpr hv)

/-- C4 (amended): scroll text parses as `direction[":"amount]` with the
code's check order: an EMPTY direction fails with the direction-required
error; otherwise a present, non-empty amount part that does not parse to a
positive integer fails with the invalid-amount error (this check precedes
the direction check); otherwise a direction not among up/down/left/right
(case-insensitively) fails with the invalid-direction error; otherwise the
scroll runs with the parsed amount, 300 when no amount part is given. -/
theorem scroll_text_parsing (u : ℚ) (w h : ℕ) (cx cy : ℚ) (text : String) (p : ℤ × ℤ)
    (hp : p = (toLogicalCoord cx u, toLogicalCoord cy u))
    (htext : textFalsy (some text) = false)
    (hin : ¬(p.1 < 0 ∨ (w : ℤ) ≤ p.1 ∨ p.2 < 0 ∨ (h : ℤ) ≤ p.2)) :
    (((splitOnChar ':' text.data).headD []).isEmpty = true →
      (dispatch u w h .scroll (some (cx, cy)) (some text)).2 = some .missingDirection) ∧
    (∀ sa : List Char, ((splitOnChar ':' text.data).headD []).isEmpty = false →
      (splitOnChar ':' text.data)[1]? = some sa → sa.isEmpty = false →
      (parseIntJS sa).getD 0 ≤ 0 →
      (dispatch u w h .scroll (some (cx, cy)) (some text)).2
        = some (.invalidAmount ⟨sa⟩)) ∧
    (∀ v : ℤ, ((splitOnChar ':' text.data).headD []).isEmpty = false →
      (match (splitOnChar ':' text.data)[1]? with
        | none => some (300 : ℤ)
        | some s => if s.isEmpty then some 300 else parseIntJS s) = some v → 0 < v →
      ((splitOnChar ':' text.data).headD []).map Char.toLower ≠ "up".data →
      ((splitOnChar ':' text.data).headD []).map Char.toLower ≠ "down".data →
      ((splitOnChar ':' text.data).headD []).map Char.toLower ≠ "left".data →
      ((splitOnChar ':' text.data).headD []).map Char.toLower ≠ "right".data →
      (dispatch u w h .scroll (some (cx, cy)) (some text)).2
        = some (.invalidDirection ⟨(splitOnChar ':' text.data).headD []⟩)) ∧
    ((splitOnChar ':' text.data)[1]? = none →
      ((splitOnChar ':' text.data).headD []).map Char.toLower = "down".data →
      dispatch u w h .scroll (some (cx, cy)) (some text)
        = ([Effect.translate p, Effect.setPosition p, Effect.scrollDown 300], none)) ∧
    (∀ (sa : List Char) (v : ℤ),
      ((splitOnChar ':' text.data).headD []).map Char.toLower = "down".data →
      (splitOnChar ':' text.data)[1]? = some sa → sa.isEmpty = false →
      parseIntJS sa = some v → 0 < v →
      dispatch u w h .scroll (some (cx, cy)) (some text)
        = ([Effect.translate p, Effect.setPosition p, Effect.scrollDown v], none)) := by
  have hrun := dispatch_scroll_run u w h cx cy text p hp htext hin
  have hdir_of_down : ∀ d : List Char, d.map Char.toLower = "down".data →
      d.isEmpty = false := by
    intro d hd
    cases d with
    | nil => exact absurd hd (by decide)
    | cons c cs => rfl
  refine ⟨?_, ?_, ?_, ?_, ?_⟩
  · intro hdir
    rw [hrun, scrollCase_dir_empty p text hdir]
  · intro sa hdir hsa hne hbad
    rw [hrun, scrollCase_invalid_amount p text sa hdir hsa hne hbad]
  · intro v hdir hnum hv hu hd hl hr
    rw [hrun, scrollCase_dir_cases p text v hdir hnum hv]
    rw [if_neg hu, if_neg hd, if_neg hl, if_neg hr]
  · intro hnone hdown
    have hdir := hdir_of_down _ hdown
    have hnum : (match (splitOnChar ':' text.data)[1]? with
        | none => some (300 : ℤ)
        | some s => if s.isEmpty then some 300 else parseIntJS s) = some 300 := by
      rw [hnone]
    rw [hrun, scrollCase_dir_cases p text 300 hdir hnum (by norm_num)]
    rw [if_neg (by rw [hdown]; decide), if_pos hdown]
  · intro sa v hdown hsa hne hpi hv
    have hdir := hdir_of_down _ hdown
    have hnum : (match (splitOnChar ':' text.data)[1]? with
        | none => some (300 : ℤ)
        | some s => if s.isEmpty then some 300 else parseIntJS s) = some v := by
      rw [hsa]
      show (if sa.isEmpty = true then some (300 : ℤ) else parseIntJS sa) = some v
      rw [hne]
      simp only [Bool.false_eq_true, if_false]
      exact hpi
    rw [hrun, scrollCase_dir_cases p text v hdir hnum hv]
    rw [if_neg (by rw [hdown]; decide), if_pos hdown]

theorem scroll_text_parsing_witness :
    dispatch 1 100 100 .scroll (some (10, 10)) (some "down:50")
        = ([Effect.translate (10, 10), Effect.setPosition (10, 10),
            Effect.scrollDown 50], none) ∧
    dispatch 1 100 100 .scroll (some (10, 10)) (some "down")
        = ([Effect.translate (10, 10), Effect.setPosition (10, 10),
            Effect.scrollDown 300], none) ∧
    (dispatch 1 100 100 .scroll (some (10, 10)) (some "down:0")).2
        = some (.invalidAmount "0") ∧
    (dispatch 1 100 100 .scroll (some (10, 10)) (some "down:-5")).2
        = some (.invalidAmount "-5") ∧
    (dispatch 1 100 100 .scroll (some (10, 10)) (some "DOWN:50")).2 = none := by
  have hp : ((10 : ℤ), (10 : ℤ)) = (toLogicalCoord 10 1, toLogicalCoord 10 1) := by
    rw [toLogicalCoord, roundQ]
    norm_num
  refine ⟨?_, ?_, ?_, ?_, ?_⟩
  · exact (scroll_text_parsing 1 100 100 10 10 "down:50" (10, 10) hp (by decide)
      (by decide)).2.2.2.2 "50".data 50 (by decide) (by decide) (by decide)
      (by decide) (by decide)
  · exact (scroll_text_parsing 1 100 100 10 10 "down" (10, 10) hp (by decide)
      (by decide)).2.2.2.1 (by decide) (by decide)
  · exact (scroll_text_parsing 1 100 100 10 10 "down:0" (10, 10) hp (by decide)
      (by decide)).2.1 "0".data (by decide) (by decide) (by decide) (by decide)
  · exact (scroll_text_parsing 1 100 100 10 10 "down:-5" (10, 10) hp (by decide)
      (by decide)).2.1 "-5".data (by decide) (by decide) (by decide) (by decide)
  · rw [(scroll_text_parsing 1 100 100 10 10 "DOWN:50" (10, 10) hp (by decide)
      (by decide)).2.2.2.2 "50".data 50 (by decide) (by decide) (by decide)
      (by decide) (by decide)]

/-- C4 (counterexample): for `"xyz:0"` the direction is not one of
up/down/left/right, yet the call does NOT fail with the invalid-direction
error — the amount check runs first and it fails with invalid-amount — so
the claim's unconditional "otherwise invalid-direction" is false. -/
theorem scroll_direction_error_counterexample :
    (dispatch 1 100 100 .scroll (some (10, 10)) (some "xyz:0")).2
        = some (.invalidAmount "0") ∧
    (∀ s : String, (dispatch 1 100 100 .scroll (some (10, 10)) (some "xyz:0")).2
        ≠ some (.invalidDirection s)) := by
  have hp : ((10 : ℤ), (10 : ℤ)) = (toLogicalCoord 10 1, toLogicalCoord 10 1) := by
    rw [toLogicalCoord, roundQ]
    norm_num
  have hd := dispatch_scroll_run 1 100 100 10 10 "xyz:0" (10, 10) hp (by decide)
    (by decide)
  have hsc : (scrollCase ((10 : ℤ), (10 : ℤ)) "xyz:0").2
      = some (.invalidAmount "0") := by decide
  constructor
  · rw [hd]
    exact hsc
  · intro s
    rw [hd]
    simp only []
    rw [hsc]
    intro hcon
    exact Option.noConfusion hcon (fun hcon2 => DispatchError.noConfusion hcon2)

lemma runAction_text_irrelevant_of_falsy (a : Action) (p? : Option (ℤ × ℤ))
    {t₁ t₂ : Option String} (h₁ : textFalsy t₁ = true) (h₂ : textFalsy t₂ = true) :
    runAction a p? t₁ = runAction a p? t₂ := by
  cases a <;> cases p? <;> simp only [runAction, h₁, h₂, if_true]

lemma dispatch_text_congr (u : ℚ) (w h : ℕ) (a : Action) (c : Option (ℚ × ℚ))
    {t₁ t₂ : Option String} (hr : ∀ p?, runAction a p? t₁ = runAction a p? t₂) :
    dispatch u w h a c t₁ = dispatch u w h a c t₂ := by
  cases c with
  | none => exact hr none
  | some cc =>
    simp only [dispatch]
    split_ifs
    · rfl
    · rw [hr]

/-- C10: for the `key`, `type` and `scroll` actions a `text` field that is
present but empty is rejected exactly like an absent one (the JavaScript
`!text` check), so the whole call behaves identically; in particular the
empty string produces the same missing-text error. -/
theorem empty_text_like_absent (u : ℚ) (w h : ℕ) (coord : Option (ℚ × ℚ)) :
    dispatch u w h .key coord (some "") = dispatch u w h .key coord none ∧
    dispatch u w h .type coord (some "") = dispatch u w h .type coord none ∧
    dispatch u w h .scroll coord (some "") = dispatch u w h .scroll coord none ∧
    (dispatch u w h .key none (some "")).2 = some (.missingText .key) ∧
    (dispatch u w h .type none (some "")).2 = some (.missingText .type) := by
  have he : textFalsy (some "") = true := by decide
  have hn : textFalsy none = true := rfl
  refine ⟨?_, ?_, ?_, ?_, ?_⟩
  · exact dispatch_text_congr u w h .key coord
      (fun p? => runAction_text_irrelevant_of_falsy .key p? he hn)
  · exact dispatch_text_congr u w h .type coord
      (fun p? => runAction_text_irrelevant_of_falsy .type p? he hn)
  · exact dispatch_text_congr u w h .scroll coord
      (fun p? => runAction_text_irrelevant_of_falsy .scroll p? he hn)
  · simp [dispatch, runAction, he]
  · simp [dispatch, runAction, he]

end ComputerMcp
